import Mathlib

/-!
Verification of the AttentionSegmentation repository against its
natural-language specification.

The development shallowly embeds the parts of the source that the
checked properties are about:

* AttentionSegmentation/visualization/visualize_attns.py
  (the per-token color rule attn_to_rgb and the color table colors2rgb);
* AttentionSegmentation/model/gumbel_softmax_classifier.py
  (BaseClassifier: constructor, forward, decode);
* AttentionSegmentation/reader/weak_conll_reader.py
  (WeakConll2003DatasetReader, in particular its whole _read method:
  divider grouping, column unzipping, number normalization, windowing,
  field construction, and the final assertion/correction loop).

Python integers and list indices become Nat/Int, Python floats become
rationals with the transcendental functions (np.exp, np.log) kept
abstract, fallible Python code returns Except over an explicit error
type, and the regular-expression calls of the source (each with a fixed
literal pattern) are embedded as the corresponding character-list
transformations.
-/

/-- Error values of the Python exceptions that the embedded code can raise.
The constructors correspond to the exception classes that appear in the
modelled source paths. -/
inductive PyErr where
  | notImplementedError (msg : String)
  | attributeError (name : String)
  | runtimeError (msg : String)
  | nameError (name : String)
  | keyError (key : String)
  | assertionError
  | indexError
  | valueError (msg : String)
  | unboundLocalError (name : String)
deriving DecidableEq, Repr

/-! ## Visualizer: visualize_attns.py -/

/-- Models the module-level dictionary colors2rgb of visualize_attns.py
(lines 22-26).  Keys other than the three assigned ones would be a
KeyError; the source only ever looks up these three. -/
def colors2rgb (c : String) : String :=
  if c = "purple" then "#712f79"
  else if c = "brickRed" then "#d2405f"
  else if c = "yellowGreen" then "#e0ff4f"
  else ""

/-- Models re.sub(".*-", "", tag) from attn_to_rgb: the greedy pattern
consumes everything up to and including the last dash, so the result is
the suffix of the tag after its last dash (the tag itself when it has no
dash).  Tags are assumed to contain no newline, which holds for NER tag
strings; the dot of the pattern does not match a newline. -/
def afterLastDash (s : String) : String :=
  String.mk ((s.data.reverse.takeWhile (fun c => !(c == '-'))).reverse)

/-- Models str(hex(int(abs(attn_weights) * 255)))[2:] from attn_to_rgb
(line 363): the lowercase hexadecimal digits of the truncated scaled
absolute attention weight.  The float weight is modelled as a rational;
int() truncation on a nonnegative float is the floor. -/
def attnHex (w : ℚ) : String :=
  String.mk (Nat.toDigits 16 (Rat.floor (|w| * 255)).toNat)

/-- Models _attn_to_rgb of visualize_attns.py (lines 360-376).  Both tags
are first stripped to their part after the last dash.  In the branch
where the stripped tags are distinct and neither is "O" the source hits
pdb.set_trace() and then executes "return rgb" with the local rgb never
assigned, so the call raises UnboundLocalError; this is modelled as the
error result. -/
def attn_to_rgb (attn_weights : ℚ) (pred_tag gold_tag : String) :
    Except PyErr String :=
  let pred_tag := afterLastDash pred_tag
  let gold_tag := afterLastDash gold_tag
  let attn_hex := attnHex attn_weights
  if pred_tag = gold_tag then
    if pred_tag ≠ "O" then
      Except.ok (colors2rgb "yellowGreen")
    else
      Except.ok ("#22aadd" ++ attn_hex)
  else
    if pred_tag = "O" then
      Except.ok (colors2rgb "brickRed")
    else if gold_tag = "O" then
      Except.ok (colors2rgb "purple")
    else
      Except.error (PyErr.unboundLocalError "rgb")

/-! ## Classifier: gumbel_softmax_classifier.py -/

/-- Modelled from the spec: the LabelIndexer collaborator
(AttentionSegmentation/reader/label_indexer.py) is referenced by both the
reader and the classifier but its module is not part of the examined
sources.  Following section 4.1 of the specification it carries the
number of tag types, a map from a dense index to the tag string, and a
map from a tag sequence to the multi-label bit vector over tag types.
get_tag is modelled as a total function; the IndexError contract for an
out-of-range index is outside the properties checked here, which only
apply get_tag at in-range indices. -/
structure LabelIndexer where
  num_tags : Nat
  get_tag : Nat → String
  index : List String → List Nat

/-- State of a BaseClassifier object (gumbel_softmax_classifier.py,
lines 53-100).  The tensor-level collaborators are kept as abstract
functions over abstract types: Tok stands for the indexed token batch,
Emb for the embedded batch, MaskT for the text-field mask, Attn for an
attention tensor and Out for the output dictionary of the identifier.
The sampler attribute is special: __init__ receives a sampler argument
but never assigns self.sampler, while forward reads self.sampler.  A
torch.nn.Module raises AttributeError for an attribute that was never
assigned, so the attribute slot is modelled as an Option around the
Python value (outer none = attribute absent, inner layer = the Python
value, which could itself be None). -/
structure BaseClassifierState (Tok Emb MaskT Attn Out Lbl : Type) where
  label_indexer : LabelIndexer
  num_labels : Nat
  thresh : ℚ
  text_field_embedder : Tok → Emb
  generator : Emb → MaskT → Attn
  identifier : Emb → MaskT → Attn → Attn → Option Lbl → Out
  sampler_attr : Option (Option (Attn → MaskT → Attn))

/-- Models BaseClassifier.__init__ (lines 58-100).  It stores the label
indexer, the derived number of labels, the threshold, the embedder, the
generator and the identifier; the sampler argument is received but
dropped: no statement of the constructor assigns self.sampler, so the
attribute slot stays absent.  log_thresh = np.log(thresh + 1e-5) is a
floating-point value not used on any modelled path and is not carried;
the metric object and the initializer/regularizer applications are
framework side effects without bearing on the modelled functions. -/
def BaseClassifier.init {Tok Emb MaskT Attn Out Lbl : Type}
    (text_field_embedder : Tok → Emb)
    (generator : Emb → MaskT → Attn)
    (sampler : Option (Attn → MaskT → Attn))
    (identifier : Emb → MaskT → Attn → Attn → Option Lbl → Out)
    (label_indexer : LabelIndexer)
    (thresh : ℚ) :
    BaseClassifierState Tok Emb MaskT Attn Out Lbl :=
  { label_indexer := label_indexer
    num_labels := label_indexer.num_tags
    thresh := thresh
    text_field_embedder := text_field_embedder
    generator := generator
    identifier := identifier
    sampler_attr := none }

/-- Models BaseClassifier.forward (lines 102-155).  kwargs is the list of
extra keyword-argument names beyond tokens/labels/tags; any extra keyword
raises NotImplementedError before anything is computed on the batch.
get_text_field_mask is the external allennlp utility, passed explicitly.
The tags argument is accepted and ignored, as in the source.  After the
generator runs, the source reads self.sampler: an absent attribute is an
AttributeError; a None value selects the identity pass-through branch
samples = attentions; otherwise the sampler is applied. -/
def BaseClassifier.forward {Tok Emb MaskT Attn Out Lbl : Type}
    (get_text_field_mask : Tok → MaskT)
    (self : BaseClassifierState Tok Emb MaskT Attn Out Lbl)
    (tokens : Tok) (labels : Option Lbl)
    (tags : Option (List String))
    (kwargs : List String) : Except PyErr Out :=
  if kwargs.length > 0 then
    Except.error (PyErr.notImplementedError "Don't handle features yet")
  else
    let emb_msg := self.text_field_embedder tokens
    let mask := get_text_field_mask tokens
    let attentions := self.generator emb_msg mask
    match self.sampler_attr with
    | none => Except.error (PyErr.attributeError "sampler")
    | some samplerVal =>
      let samples :=
        match samplerVal with
        | some s => s attentions mask
        | none => attentions
      Except.ok (self.identifier emb_msg mask samples attentions labels)

/-- Models np.nonzero(xs)[0] for a one-dimensional array: the indices of
the entries different from zero, in increasing order. -/
def npNonzero (xs : List ℚ) : List Nat :=
  (List.range xs.length).filter (fun j => decide (xs.getD j 0 ≠ 0))

/-- Models assignment d[k] = v on a Python (Ordered)Dict represented as an
association list: an existing key keeps its position and gets the new
value, a new key is appended at the end. -/
def odInsert (d : List (String × List ℚ)) (k : String) (v : List ℚ) :
    List (String × List ℚ) :=
  if d.any (fun p => p.1 = k) then
    d.map (fun p => if p.1 = k then (k, v) else p)
  else d ++ [(k, v)]

/-- Input tensors of BaseClassifier.decode, as nested lists: mask is
batch x seq of zeros and ones, preds and log_probs are batch x num_tags,
attentions is batch x seq x num_tags.  The tensors of one batch are
rectangular and have matching batch and tag dimensions; the embedding
reads entries with getD, whose defaults are never reached on such
inputs. -/
structure DecodeInput where
  mask : List (List Nat)
  preds : List (List ℚ)
  log_probs : List (List ℚ)
  attentions : List (List (List ℚ))

/-- Decoded result of BaseClassifier.decode: per instance the list of
predicted (tag, probability) pairs and the ordered per-tag attention
lists. -/
structure DecodedOutput where
  preds : List (List (String × ℚ))
  attentions : List (List (String × List ℚ))
deriving DecidableEq, Repr

/-- Models BaseClassifier.decode (lines 164-217).  lengths are the row
sums of the mask; for each batch index the nonzero prediction indices
produce (get_tag, exp(log_prob)) pairs, an empty list is replaced by the
single pair ("O", 1.0), and every tag column of the attention tensor is
truncated to the instance length.  np.exp operates on floats; it is
modelled as an abstract function exp on rationals.  self.label_indexer
is passed explicitly as the indexer argument. -/
def BaseClassifier.decode (indexer : LabelIndexer) (exp : ℚ → ℚ)
    (outputs : DecodeInput) : DecodedOutput :=
  let lengths := outputs.mask.map (fun row => row.foldl (· + ·) 0)
  let rows := (List.range lengths.length).map (fun ix =>
    let predRow := outputs.preds.getD ix []
    let non_zero_indices := npNonzero predRow
    let pred_list := non_zero_indices.map (fun kx =>
      (indexer.get_tag kx, exp ((outputs.log_probs.getD ix []).getD kx 0)))
    let pred_list := if pred_list.length = 0 then [("O", (1 : ℚ))] else pred_list
    let attnRow := outputs.attentions.getD ix []
    let num_tags := (attnRow.headD []).length
    let attention := (List.range num_tags).foldl (fun d jx =>
      odInsert d (indexer.get_tag jx)
        ((attnRow.take (lengths.getD ix 0)).map (fun r => r.getD jx 0))) []
    (pred_list, attention))
  { preds := rows.map (fun r => r.1)
    attentions := rows.map (fun r => r.2) }

/-! ## Dataset reader: weak_conll_reader.py

The file is read line by line; each line is represented by the list of
its whitespace-separated fields, that is, by the value of
line.strip().split() that the source computes for every line of a
sentence chunk.  A blank line has no fields and is represented by the
empty list. -/

/-- Models _is_divider (lines 31-40): a line is a divider when it is
blank (no fields after stripping) or its first token is -DOCSTART-. -/
def _is_divider (fields : List String) : Bool :=
  fields.isEmpty || fields.head? == some "-DOCSTART-"

/-- Helper for the itertools.groupby call of _read: collects the maximal
runs of consecutive non-divider lines, carrying the current run in
reverse.  Divider runs are dropped, exactly as the source ignores the
divider chunks of groupby. -/
def groupAux (cur : List (List String)) :
    List (List String) → List (List (List String))
  | [] => if cur.isEmpty then [] else [cur.reverse]
  | l :: ls =>
    if _is_divider l then
      if cur.isEmpty then groupAux [] ls else cur.reverse :: groupAux [] ls
    else groupAux (l :: cur) ls

/-- Models the groupby(data_file, _is_divider) loop structure of _read
(line 125): the sentences of a corpus are the maximal runs of
consecutive non-divider lines. -/
def groupSentences (lines : List (List String)) :
    List (List (List String)) :=
  groupAux [] lines

/-- The length of zip(*rows) in Python: the minimum of the row lengths,
and zero for no rows. -/
def pyZipLen (rows : List (List String)) : Nat :=
  match rows.map List.length with
  | [] => 0
  | n :: ns => ns.foldl min n

/-- Models the unzipping trick zip(*fields) of _read (lines 133-135):
column j of the transposed table, for j below every row length.  The
getD default is never reached because j ranges below the minimum row
length. -/
def pyZip (rows : List (List String)) : List (List String) :=
  (List.range (pyZipLen rows)).map (fun j => rows.map (fun r => r.getD j ""))

/-- Helper for the digit-run substitution: the Bool records whether the
previous character was a digit, so that each maximal digit run emits the
placeholder exactly once. -/
def subDigitRunsAux : Bool → List Char → List Char
  | _, [] => []
  | inRun, c :: cs =>
    if c.isDigit then
      if inRun then subDigitRunsAux true cs
      else '@' :: '0' :: '@' :: subDigitRunsAux true cs
    else c :: subDigitRunsAux false cs

/-- Models re.sub("[0-9]+", NUM_TOKEN, token) from _read (line 161) with
NUM_TOKEN = "@0@": every maximal run of decimal digits is replaced by the
placeholder. -/
def pySubNums (s : String) : String :=
  String.mk (subDigitRunsAux false s.data)

/-- Models tag.startswith("I-") used by the correction loop of _read
(line 237). -/
def startsWithIB (s : String) : Bool :=
  match s.data with
  | 'I' :: '-' :: _ => true
  | _ => false

/-- Models re.sub("I-", "B-", tag) from the correction loop of _read
(line 240): every occurrence of the two-character pattern is replaced,
scanning left to right without overlap. -/
def reSubIBData : List Char → List Char
  | [] => []
  | 'I' :: '-' :: rest => 'B' :: '-' :: reSubIBData rest
  | c :: rest => c :: reSubIBData rest

/-- String wrapper of reSubIBData. -/
def reSubIB (s : String) : String :=
  String.mk (reSubIBData s.data)

/-- Models range(0, n, step) in Python for a positive step: the multiples
of step below n.  The number of elements is the rounded-up quotient. -/
def pyRange (n step : Nat) : List Nat :=
  List.range' 0 ((n + step - 1) / step) step

/-- Configuration of a WeakConll2003DatasetReader, holding the
constructor attributes that _read consults (lines 75-111).  The
label_indexer is the optional LabelIndexer; mask_set is the
caller-supplied lowercase mask vocabulary. -/
structure ReaderConfig where
  tag_label : Option String := some "ner"
  feature_labels : List String := []
  coding_scheme : String := "IOB1"
  max_sentence_length : Int := -1
  convert_numbers : Bool := false
  label_indexer : Option LabelIndexer := none
  mask_set : List String := []

/-- One emitted instance of the reader: the window token texts, the
binary attention-mask markers, the optional feature fields, the gold tag
field and the derived multi-label field.  A missing optional field
corresponds to a key absent from instance.fields. -/
structure ReadInstance where
  tokens : List String
  attn_mask : List Nat
  pos_tags : Option (List String) := none
  chunk_tags : Option (List String) := none
  ner_tags : Option (List String) := none
  tags : Option (List String) := none
  labels : Option (List Nat) := none
deriving DecidableEq, Repr, Inhabited

/-- The pure field construction for the window starting at ix, for a
coding scheme other than BIOUL (lines 171-231 of _read).  new_tokens and
mask_ids are the per-sentence converted token texts and mask markers;
pos_tags, chunk_tags and ner_tags are the unzipped tag columns.  Note
two quirks kept from the source: for tag_label = pos the tags field
receives the whole sentence pos column, not the window slice, and for
tag_label = chunk it receives the coded chunks which are absent on
three-column input (there the source would fail inside the external
SequenceLabelField constructor, which is not modelled). -/
def mkWindowFields (cfg : ReaderConfig)
    (new_tokens : List String) (mask_ids : List Nat)
    (pos_tags : List String) (chunk_tags : Option (List String))
    (ner_tags : List String) (stepsize ix : Nat) : ReadInstance :=
  let sequence := (new_tokens.drop ix).take stepsize
  let attn_mask_seq := (mask_ids.drop ix).take stepsize
  let coded_chunks := chunk_tags.map (fun ct => (ct.drop ix).take stepsize)
  let coded_ner := (ner_tags.drop ix).take stepsize
  { tokens := sequence
    attn_mask := attn_mask_seq
    pos_tags :=
      if "pos" ∈ cfg.feature_labels then some ((pos_tags.drop ix).take stepsize)
      else none
    chunk_tags := if "chunk" ∈ cfg.feature_labels then coded_chunks else none
    ner_tags := if "ner" ∈ cfg.feature_labels then some coded_ner else none
    tags :=
      if cfg.tag_label = some "ner" then some coded_ner
      else if cfg.tag_label = some "pos" then some pos_tags
      else if cfg.tag_label = some "chunk" then coded_chunks
      else none
    labels := cfg.label_indexer.map (fun idxr => idxr.index coded_ner) }

/-- Models the body of the sentence loop of _read (lines 128-231) for one
non-divider chunk: unzip the fields, destructure by column count (any
count other than 3 or 4 raises RuntimeError), normalize numbers, build
the mask markers, and emit one instance per window of size stepsize.
When the coding scheme is BIOUL the loop body calls iob1_to_bioul, a
name that is neither defined nor imported by the module, so the first
window raises NameError.  A zero stepsize would make range() raise
ValueError; this needs an empty sentence, which groupby never yields. -/
def processSentence (cfg : ReaderConfig) (fields : List (List String)) :
    Except PyErr (List ReadInstance) := do
  let unzipped_fields := pyZip fields
  let (tokens, pos_tags, chunk_tags, ner_tags) ←
    if unzipped_fields.length = 4 then
      Except.ok (unzipped_fields.getD 0 [], unzipped_fields.getD 1 [],
        some (unzipped_fields.getD 2 []), unzipped_fields.getD 3 [])
    else if unzipped_fields.length = 3 then
      Except.ok (unzipped_fields.getD 0 [], unzipped_fields.getD 1 [],
        none, unzipped_fields.getD 2 [])
    else
      Except.error (PyErr.runtimeError
        ("Found length " ++ toString unzipped_fields.length))
  let conv := fun t => if cfg.convert_numbers then pySubNums t else t
  let new_tokens := tokens.map conv
  let mask_ids := tokens.map (fun t =>
    if (conv t).toLower ∈ cfg.mask_set then 1 else 0)
  let stepsize :=
    if cfg.max_sentence_length > 0 then cfg.max_sentence_length.toNat
    else tokens.length
  if stepsize = 0 then
    Except.error (PyErr.valueError "range() arg 3 must not be zero")
  else
    (pyRange new_tokens.length stepsize).mapM (fun ix =>
      if cfg.coding_scheme = "BIOUL" then
        Except.error (PyErr.nameError "iob1_to_bioul")
      else
        Except.ok (mkWindowFields cfg new_tokens mask_ids
          pos_tags chunk_tags ner_tags stepsize ix))

/-- Models the final assertion-and-correction loop of _read (lines
233-241), returning the corrected instances together with the list of
logger.info messages it emits.  Per instance: reading the tags field of
an instance without one is a KeyError; the token/tag length equality and
(when a ceiling is set) the length ceiling are assertions; reading the
first tag of an empty tag list is an IndexError; a first tag starting
with I- is rewritten with re.sub("I-", "B-") and the correction is
logged. -/
def correctLoop (cfg : ReaderConfig) (file_path : String) :
    List ReadInstance → Except PyErr (List ReadInstance × List String)
  | [] => Except.ok ([], [])
  | inst :: rest => do
    let tags ←
      match inst.tags with
      | some t => Except.ok t
      | none => Except.error (PyErr.keyError "tags")
    if inst.tokens.length ≠ tags.length then
      Except.error PyErr.assertionError
    else if cfg.max_sentence_length > 0 ∧
        ¬((inst.tokens.length : Int) ≤ cfg.max_sentence_length) then
      Except.error PyErr.assertionError
    else
      match tags with
      | [] => Except.error PyErr.indexError
      | t :: ts => do
        let (rest', logs) ← correctLoop cfg file_path rest
        if startsWithIB t then
          Except.ok ({ inst with tags := some (reSubIB t :: ts) } :: rest',
            ("Made correction in " ++ file_path) :: logs)
        else
          Except.ok (inst :: rest', logs)

/-- Models WeakConll2003DatasetReader._read (lines 116-241) on the listed
field rows of the corpus file at file_path: group the lines into
sentences, process every sentence into its windows, collect all
instances in order, then run the assertion-and-correction loop.  The
result is the corrected instance list and the emitted correction log;
any error aborts the whole read with no instances. -/
def WeakConllRead (cfg : ReaderConfig) (file_path : String)
    (lines : List (List String)) :
    Except PyErr (List ReadInstance × List String) := do
  let instLists ← (groupSentences lines).mapM (processSentence cfg)
  correctLoop cfg file_path instLists.flatten

/-- The correction applied by the final loop of _read to the tags field
of one instance, as a pure function: a first tag starting with I- is
rewritten by re.sub("I-", "B-"), the rest is unchanged. -/
def bCorrectTags : List String → List String
  | [] => []
  | t :: ts => (if startsWithIB t then reSubIB t else t) :: ts

/-- The instance-level form of the final correction of _read. -/
def applyCorrection (inst : ReadInstance) : ReadInstance :=
  { inst with tags := inst.tags.map bCorrectTags }

/-- The log entry the final loop of _read emits for one instance: a
message exactly when the first gold tag starts with I-. -/
def logOf (file_path : String) (inst : ReadInstance) : Option String :=
  match inst.tags with
  | some (t :: _) =>
    if startsWithIB t then some ("Made correction in " ++ file_path) else none
  | _ => none

/-- Consecutive chunks of size step of a list (the windows that the
slicing loop of _read produces); an auxiliary spec-side definition used
to state and prove the windowing properties. -/
def chunks (step : Nat) : List α → List (List α)
  | [] => []
  | x :: xs =>
    if step = 0 then []
    else (x :: xs).take step :: chunks step ((x :: xs).drop step)
termination_by l => l.length
decreasing_by simp [List.length_drop]; omega

/-- The token column of a sentence given as field rows. -/
def tokensOf (rows : List (List String)) : List String :=
  (pyZip rows).getD 0 []

/-- The NER tag column of a sentence given as field rows: the last of
four columns, or the last of three. -/
def nerOf (rows : List (List String)) : List String :=
  if (pyZip rows).length = 4 then (pyZip rows).getD 3 []
  else (pyZip rows).getD 2 []

/-- The window step the reader uses for a sentence: the configured
ceiling when positive, otherwise the sentence length (one window). -/
def stepOf (cfg : ReaderConfig) (rows : List (List String)) : Nat :=
  if cfg.max_sentence_length > 0 then cfg.max_sentence_length.toNat
  else (tokensOf rows).length

/-- The per-token normalization the reader applies: digit-run
substitution when convert_numbers is set, identity otherwise. -/
def convTok (cfg : ReaderConfig) (t : String) : String :=
  if cfg.convert_numbers then pySubNums t else t

/-- The normalized token texts of a sentence. -/
def newTokensOf (cfg : ReaderConfig) (rows : List (List String)) :
    List String :=
  (tokensOf rows).map (convTok cfg)

/-- The binary mask markers of a sentence: one per token, set when the
lowercased normalized token belongs to the mask vocabulary. -/
def maskIdsOf (cfg : ReaderConfig) (rows : List (List String)) : List Nat :=
  (tokensOf rows).map (fun t =>
    if (convTok cfg t).toLower ∈ cfg.mask_set then 1 else 0)

/-- The POS column of a sentence given as field rows. -/
def posOf (rows : List (List String)) : List String :=
  (pyZip rows).getD 1 []

/-- The chunk column of a sentence given as field rows: present only on
four-column input. -/
def chunkOf (rows : List (List String)) : Option (List String) :=
  if (pyZip rows).length = 4 then some ((pyZip rows).getD 2 []) else none

/-- The instance the reader emits for the window of a sentence starting
at ix, before the final correction loop. -/
def windowAt (cfg : ReaderConfig) (rows : List (List String)) (ix : Nat) :
    ReadInstance :=
  mkWindowFields cfg (newTokensOf cfg rows) (maskIdsOf cfg rows)
    (posOf rows) (chunkOf rows) (nerOf rows) (stepOf cfg rows) ix

/-- The list of window start offsets of a sentence. -/
def windowStarts (cfg : ReaderConfig) (rows : List (List String)) :
    List Nat :=
  pyRange (newTokensOf cfg rows).length (stepOf cfg rows)

/-- A reader configuration with the constructor defaults of the source
(NER tag label, no feature labels, IOB1 coding, no number conversion, no
mask set), a chosen length ceiling and a chosen optional label indexer;
used as a concrete fixture by the witnesses. -/
def defaultReaderCfg (len : Int) (idx : Option LabelIndexer) : ReaderConfig :=
  { tag_label := some "ner"
    feature_labels := []
    coding_scheme := "IOB1"
    max_sentence_length := len
    convert_numbers := false
    label_indexer := idx
    mask_set := [] }

/-- A concrete four-line CoNLL sentence (token, POS, NER columns) used by
the witnesses; its NER column starts with an inside-span tag. -/
def euRows : List (List String) :=
  [["EU", "NNP", "I-ORG"], ["rejects", "VBZ", "O"],
   ["German", "JJ", "I-MISC"], ["call", "NN", "O"]]

/-- A concrete label indexer over the two entity types of euRows, used by
the witnesses. -/
def euIndexer : LabelIndexer :=
  { num_tags := 2
    get_tag := fun ix => if ix = 0 then "ORG" else "MISC"
    index := fun tags => [if tags.any (fun t => t = "I-ORG") then 1 else 0,
      if tags.any (fun t => t = "I-MISC") then 1 else 0] }

/-- The neutral both-"O" tone always starts with the seven characters
of "#22aadd" and therefore differs from each of the three highlight
colors, whatever the attention weight contributes as suffix. -/
lemma neutral_ne_highlight (h : String) :
    "#22aadd" ++ h ≠ colors2rgb "yellowGreen" ∧
    "#22aadd" ++ h ≠ colors2rgb "brickRed" ∧
    "#22aadd" ++ h ≠ colors2rgb "purple" := by
  refine ⟨fun heq => ?_, fun heq => ?_, fun heq => ?_⟩ <;>
  · have hd := congrArg String.data heq
    rw [String.data_append] at hd
    simp [colors2rgb, String.data] at hd

/-! ## Auxiliary lemmas about the embedded list operations -/

lemma pyZip_length (rows : List (List String)) :
    (pyZip rows).length = pyZipLen rows := by
  simp [pyZip]

lemma pyZip_getD (rows : List (List String)) (j : Nat)
    (hj : j < pyZipLen rows) :
    (pyZip rows).getD j [] = rows.map (fun r => r.getD j "") := by
  unfold pyZip
  rw [List.getD_eq_getElem?_getD, List.getElem?_map, List.getElem?_range hj]
  rfl

lemma groupAux_no_divider :
    ∀ (rows : List (List String)) (cur : List (List String)), rows ≠ [] →
      (∀ r ∈ rows, _is_divider r = false) →
      groupAux cur rows = [cur.reverse ++ rows] := by
  intro rows
  induction rows with
  | nil => intro cur h; exact absurd rfl h
  | cons l ls ih =>
    intro cur _ hnd
    rw [groupAux]
    rw [hnd l (List.mem_cons_self _ _)]
    simp only [Bool.false_eq_true, if_false]
    cases ls with
    | nil => simp [groupAux]
    | cons l2 ls2 =>
      rw [ih (l :: cur) (by simp) (fun r hr => hnd r (List.mem_cons_of_mem _ hr))]
      simp

lemma groupSentences_single (rows : List (List String)) (h : rows ≠ [])
    (hnd : ∀ r ∈ rows, _is_divider r = false) :
    groupSentences rows = [rows] := by
  unfold groupSentences
  rw [groupAux_no_divider rows [] h hnd]
  simp

lemma chunks_flatten {α : Type} {step : Nat} (h : 0 < step) :
    ∀ xs : List α, (chunks step xs).flatten = xs := by
  have aux : ∀ (n : Nat) (xs : List α), xs.length ≤ n →
      (chunks step xs).flatten = xs := by
    intro n
    induction n with
    | zero =>
      intro xs hlen
      have : xs = [] := List.length_eq_zero.mp (Nat.le_zero.mp hlen)
      subst this; simp [chunks]
    | succ n ih =>
      intro xs hlen
      cases xs with
      | nil => simp [chunks]
      | cons x l =>
        rw [chunks, if_neg (Nat.pos_iff_ne_zero.mp h)]
        rw [List.flatten_cons]
        rw [ih ((x :: l).drop step) (by simp at hlen ⊢; omega)]
        exact List.take_append_drop step (x :: l)
  intro xs; exact aux xs.length xs (Nat.le_refl _)

lemma chunks_mem_length_le {α : Type} {step : Nat} (h : 0 < step) :
    ∀ (xs : List α) (w : List α), w ∈ chunks step xs → w.length ≤ step := by
  have aux : ∀ (n : Nat) (xs : List α), xs.length ≤ n →
      ∀ w ∈ chunks step xs, w.length ≤ step := by
    intro n
    induction n with
    | zero =>
      intro xs hlen
      have : xs = [] := List.length_eq_zero.mp (Nat.le_zero.mp hlen)
      subst this; simp [chunks]
    | succ n ih =>
      intro xs hlen w hw
      cases xs with
      | nil => simp [chunks] at hw
      | cons x l =>
        rw [chunks, if_neg (Nat.pos_iff_ne_zero.mp h)] at hw
        rcases List.mem_cons.mp hw with hw | hw
        · subst hw; simp
        · exact ih ((x :: l).drop step) (by simp at hlen ⊢; omega) w hw
  intro xs; exact aux xs.length xs (Nat.le_refl _)

lemma pyRange_map_eq_chunks {α : Type} {step : Nat} (h : 0 < step) :
    ∀ xs : List α,
      (pyRange xs.length step).map (fun ix => (xs.drop ix).take step) =
        chunks step xs := by
  have aux : ∀ (n : Nat) (xs : List α), xs.length ≤ n →
      (pyRange xs.length step).map (fun ix => (xs.drop ix).take step) =
        chunks step xs := by
    intro n
    induction n with
    | zero =>
      intro xs hlen
      have hxs : xs = [] := List.length_eq_zero.mp (Nat.le_zero.mp hlen)
      subst hxs
      have hz : (step - 1) / step = 0 := Nat.div_eq_of_lt (by omega)
      simp [pyRange, chunks, hz]
    | succ n ih =>
      intro xs hlen
      cases xs with
      | nil =>
        have hz : (step - 1) / step = 0 := Nat.div_eq_of_lt (by omega)
        simp [pyRange, chunks, hz]
      | cons x l =>
        rw [chunks, if_neg (Nat.pos_iff_ne_zero.mp h)]
        have hlen1 : (x :: l).length + step - 1 = ((x :: l).length - 1) + step := by
          simp only [List.length_cons]; omega
        have hq : ((x :: l).length + step - 1) / step
            = ((x :: l).length - 1) / step + 1 := by
          rw [hlen1, Nat.add_div_right _ h]
        rw [pyRange, hq, List.range'_succ]
        rw [List.map_cons]
        have hdrop0 : (((x :: l).drop 0).take step) = (x :: l).take step := rfl
        rw [hdrop0]
        have htail : List.range' (0 + step) (((x :: l).length - 1) / step) step
            = (List.range' 0 (((x :: l).length - 1) / step) step).map
              (fun i => step + i) := by
          rw [List.map_add_range', Nat.add_comm 0 step]
        rw [htail, List.map_map]
        have hcomp :
            ((fun ix => ((x :: l).drop ix).take step) ∘ (fun i => step + i))
            = fun ix => (((x :: l).drop step).drop ix).take step := by
          funext ix
          simp [Function.comp, List.drop_drop]
        rw [hcomp]
        have hlen2 : ((x :: l).drop step).length = (x :: l).length - step := by
          simp
        have hq2 : ((x :: l).length - 1) / step
            = (((x :: l).drop step).length + step - 1) / step := by
          rw [hlen2]
          rcases Nat.le_total step (x :: l).length with hle | hle
          · congr 1; omega
          · have h1 : (x :: l).length - step = 0 := by omega
            rw [h1]
            have h2 : (x :: l).length - 1 < step := by simp at hle ⊢; omega
            rw [Nat.div_eq_of_lt h2, Nat.div_eq_of_lt (by omega)]
        rw [hq2]
        exact congrArg (fun t => List.take step (x :: l) :: t)
          (ih ((x :: l).drop step) (by simp at hlen ⊢; omega))
  intro xs; exact aux xs.length xs (Nat.le_refl _)

lemma mem_pyRange_lt {n step ix : Nat} (h : 0 < step)
    (hmem : ix ∈ pyRange n step) : ix < n := by
  rw [pyRange, List.mem_range'] at hmem
  obtain ⟨i, hi, rfl⟩ := hmem
  have h2 : (i + 1) * step ≤ n + step - 1 :=
    (Nat.le_div_iff_mul_le h).mp (Nat.succ_le_of_lt hi)
  rw [Nat.succ_mul, Nat.mul_comm] at h2
  omega

lemma lt_pyRange_length {n step k : Nat} (h : 0 < step)
    (hk : step * k < n) : k < (pyRange n step).length := by
  rw [pyRange, List.length_range']
  rw [Nat.lt_iff_add_one_le, Nat.le_div_iff_mul_le h]
  rw [Nat.succ_mul, Nat.mul_comm]
  omega

lemma pyRange_getElem {n step k : Nat} (hk : k < (pyRange n step).length) :
    (pyRange n step).getD k 0 = step * k := by
  rw [List.getD_eq_getElem?_getD, List.getElem?_eq_getElem hk]
  simp [pyRange]

lemma tokensOf_length (rows : List (List String))
    (hcols : pyZipLen rows = 3 ∨ pyZipLen rows = 4) :
    (tokensOf rows).length = rows.length := by
  rw [tokensOf, pyZip_getD rows 0 (by omega)]
  simp

lemma nerOf_length (rows : List (List String))
    (hcols : pyZipLen rows = 3 ∨ pyZipLen rows = 4) :
    (nerOf rows).length = rows.length := by
  rw [nerOf, pyZip_length]
  rcases hcols with h3 | h4
  · rw [h3, if_neg (by omega), pyZip_getD rows 2 (by omega)]
    simp
  · rw [h4, if_pos rfl, pyZip_getD rows 3 (by omega)]
    simp

lemma stepOf_pos (cfg : ReaderConfig) (rows : List (List String))
    (hrows : rows ≠ [])
    (hcols : pyZipLen rows = 3 ∨ pyZipLen rows = 4) :
    0 < stepOf cfg rows := by
  rw [stepOf]
  by_cases hmax : cfg.max_sentence_length > 0
  · rw [if_pos hmax]; omega
  · rw [if_neg hmax, tokensOf_length rows hcols]
    exact List.length_pos.mpr hrows

lemma mapM_ok_of {ε α β : Type} (f : α → Except ε β) (g : α → β) :
    ∀ l : List α, (∀ x ∈ l, f x = Except.ok (g x)) →
      l.mapM f = Except.ok (l.map g) := by
  intro l
  induction l with
  | nil => intro _; rfl
  | cons x xs ih =>
    intro h
    rw [List.mapM_cons, h x (List.mem_cons_self _ _),
      ih (fun y hy => h y (List.mem_cons_of_mem _ hy))]
    rfl

lemma mapM_ok_mem {ε α β : Type} (f : α → Except ε β) :
    ∀ (l : List α) (ys : List β), l.mapM f = Except.ok ys →
      ∀ x ∈ l, ∃ y, f x = Except.ok y := by
  intro l
  induction l with
  | nil => intro ys _ x hx; simp at hx
  | cons a as ih =>
    intro ys h x hx
    rw [List.mapM_cons] at h
    cases hfa : f a with
    | error e => rw [hfa] at h; simp [Bind.bind, Except.bind] at h
    | ok b =>
      rw [hfa] at h
      cases has : as.mapM f with
      | error e =>
        rw [has] at h
        simp [Bind.bind, Except.bind] at h
      | ok bs =>
        rcases List.mem_cons.mp hx with rfl | hx
        · exact ⟨b, hfa⟩
        · exact ih bs has x hx

lemma correctLoop_ok (cfg : ReaderConfig) (fp : String) :
    ∀ insts : List ReadInstance,
      (∀ inst ∈ insts, ∃ t ts, inst.tags = some (t :: ts) ∧
        inst.tokens.length = (t :: ts).length ∧
        (cfg.max_sentence_length > 0 →
          (inst.tokens.length : Int) ≤ cfg.max_sentence_length)) →
      correctLoop cfg fp insts =
        Except.ok (insts.map applyCorrection, insts.filterMap (logOf fp)) := by
  intro insts
  induction insts with
  | nil => intro _; rfl
  | cons inst rest ih =>
    intro h
    obtain ⟨t, ts, htags, hlen, hbound⟩ := h inst (List.mem_cons_self _ _)
    have hrest := ih (fun i hi => h i (List.mem_cons_of_mem _ hi))
    rw [correctLoop, htags]
    show (if inst.tokens.length ≠ (t :: ts).length then
        Except.error PyErr.assertionError
      else if cfg.max_sentence_length > 0 ∧
          ¬((inst.tokens.length : Int) ≤ cfg.max_sentence_length) then
        Except.error PyErr.assertionError
      else do
        let (rest', logs) ← correctLoop cfg fp rest
        if startsWithIB t then
          Except.ok ({ inst with tags := some (reSubIB t :: ts) } :: rest',
            ("Made correction in " ++ fp) :: logs)
        else
          Except.ok (inst :: rest', logs)) = _
    rw [if_neg (by omega), if_neg (by rintro ⟨h1, h2⟩; exact h2 (hbound h1)),
      hrest]
    show (if startsWithIB t then
        Except.ok ({ inst with tags := some (reSubIB t :: ts) }
            :: rest.map applyCorrection,
          ("Made correction in " ++ fp) :: rest.filterMap (logOf fp))
      else
        Except.ok (inst :: rest.map applyCorrection,
          rest.filterMap (logOf fp))) = _
    rw [List.map_cons, List.filterMap_cons]
    cases hSW : startsWithIB t with
    | true =>
      rw [if_pos rfl]
      have hcorr : applyCorrection inst
          = { inst with tags := some (reSubIB t :: ts) } := by
        rw [applyCorrection, htags]
        simp [bCorrectTags, hSW]
      have hlog : logOf fp inst = some ("Made correction in " ++ fp) := by
        rw [logOf, htags]
        simp [hSW]
      rw [hcorr, hlog]
    | false =>
      rw [if_neg (by simp)]
      have hcorr : applyCorrection inst = inst := by
        rw [applyCorrection, htags]
        show { inst with tags := some (bCorrectTags (t :: ts)) } = inst
        rw [show bCorrectTags (t :: ts) = t :: ts by simp [bCorrectTags, hSW]]
        rw [← htags]
      have hlog : logOf fp inst = none := by
        rw [logOf, htags]
        simp [hSW]
      rw [hcorr, hlog]

lemma processSentence_ok (cfg : ReaderConfig) (rows : List (List String))
    (hcode : cfg.coding_scheme ≠ "BIOUL")
    (hcols : pyZipLen rows = 3 ∨ pyZipLen rows = 4)
    (hrows : rows ≠ []) :
    processSentence cfg rows =
      Except.ok ((windowStarts cfg rows).map (windowAt cfg rows)) := by
  have hstep : ¬(stepOf cfg rows = 0) := by
    have := stepOf_pos cfg rows hrows hcols
    omega
  rcases hcols with h3 | h4
  · have hchunk : chunkOf rows = none := by
      rw [chunkOf, pyZip_length, h3]
      simp
    have hner : nerOf rows = (pyZip rows).getD 2 [] := by
      rw [nerOf, pyZip_length, h3]
      simp
    simp only [processSentence]
    rw [pyZip_length, h3]
    rw [if_neg (by decide), if_pos rfl]
    show (if stepOf cfg rows = 0 then
        Except.error (PyErr.valueError "range() arg 3 must not be zero")
      else
        (windowStarts cfg rows).mapM (fun ix =>
          if cfg.coding_scheme = "BIOUL" then
            Except.error (PyErr.nameError "iob1_to_bioul")
          else
            Except.ok (mkWindowFields cfg (newTokensOf cfg rows)
              (maskIdsOf cfg rows) (posOf rows) none
              ((pyZip rows).getD 2 []) (stepOf cfg rows) ix)))
      = Except.ok ((windowStarts cfg rows).map (windowAt cfg rows))
    rw [if_neg hstep]
    exact mapM_ok_of _ (windowAt cfg rows) (windowStarts cfg rows)
      (fun ix _ => by rw [if_neg hcode, windowAt, hchunk, hner])
  · have hchunk : chunkOf rows = some ((pyZip rows).getD 2 []) := by
      rw [chunkOf, pyZip_length, h4]
      simp
    have hner : nerOf rows = (pyZip rows).getD 3 [] := by
      rw [nerOf, pyZip_length, h4]
      simp
    simp only [processSentence]
    rw [pyZip_length, h4]
    rw [if_pos rfl]
    show (if stepOf cfg rows = 0 then
        Except.error (PyErr.valueError "range() arg 3 must not be zero")
      else
        (windowStarts cfg rows).mapM (fun ix =>
          if cfg.coding_scheme = "BIOUL" then
            Except.error (PyErr.nameError "iob1_to_bioul")
          else
            Except.ok (mkWindowFields cfg (newTokensOf cfg rows)
              (maskIdsOf cfg rows) (posOf rows)
              (some ((pyZip rows).getD 2 []))
              ((pyZip rows).getD 3 []) (stepOf cfg rows) ix)))
      = Except.ok ((windowStarts cfg rows).map (windowAt cfg rows))
    rw [if_neg hstep]
    exact mapM_ok_of _ (windowAt cfg rows) (windowStarts cfg rows)
      (fun ix _ => by rw [if_neg hcode, windowAt, hchunk, hner])

lemma read_one_sentence (cfg : ReaderConfig) (fp : String)
    (rows : List (List String))
    (hrows : rows ≠ [])
    (hnd : ∀ r ∈ rows, _is_divider r = false)
    (hcols : pyZipLen rows = 3 ∨ pyZipLen rows = 4)
    (hcode : cfg.coding_scheme ≠ "BIOUL")
    (htag : cfg.tag_label = some "ner") :
    WeakConllRead cfg fp rows =
      Except.ok (
        (windowStarts cfg rows).map
          (fun ix => applyCorrection (windowAt cfg rows ix)),
        (windowStarts cfg rows).filterMap
          (fun ix => logOf fp (windowAt cfg rows ix))) := by
  have hL1 : (newTokensOf cfg rows).length = rows.length := by
    rw [newTokensOf, List.length_map, tokensOf_length rows hcols]
  have hL2 : (nerOf rows).length = rows.length := nerOf_length rows hcols
  have hsp := stepOf_pos cfg rows hrows hcols
  have hconds : ∀ inst ∈ (windowStarts cfg rows).map (windowAt cfg rows),
      ∃ t ts, inst.tags = some (t :: ts) ∧
        inst.tokens.length = (t :: ts).length ∧
        (cfg.max_sentence_length > 0 →
          (inst.tokens.length : Int) ≤ cfg.max_sentence_length) := by
    intro inst hmem
    obtain ⟨ix, hix, rfl⟩ := List.mem_map.mp hmem
    have htagsW : (windowAt cfg rows ix).tags
        = some (((nerOf rows).drop ix).take (stepOf cfg rows)) := by
      simp [windowAt, mkWindowFields, htag]
    have htokW : (windowAt cfg rows ix).tokens
        = ((newTokensOf cfg rows).drop ix).take (stepOf cfg rows) := by
      simp [windowAt, mkWindowFields]
    have hlt : ix < (newTokensOf cfg rows).length := mem_pyRange_lt hsp hix
    have hne : ((nerOf rows).drop ix).take (stepOf cfg rows) ≠ [] := by
      have hpos : 0 < (((nerOf rows).drop ix).take (stepOf cfg rows)).length := by
        rw [List.length_take, List.length_drop, hL2]
        omega
      exact List.length_pos.mp hpos
    obtain ⟨t, ts, hts⟩ := List.exists_cons_of_ne_nil hne
    refine ⟨t, ts, by rw [htagsW, hts], ?_, ?_⟩
    · rw [htokW, ← hts]
      simp [List.length_take, List.length_drop, hL1, hL2]
    · intro hmax
      have hlen : (windowAt cfg rows ix).tokens.length ≤ stepOf cfg rows := by
        rw [htokW]
        simp [List.length_take]
      rw [stepOf, if_pos hmax] at hlen
      omega
  unfold WeakConllRead
  rw [groupSentences_single rows hrows hnd]
  rw [List.mapM_cons, processSentence_ok cfg rows hcode hcols hrows,
    List.mapM_nil]
  show correctLoop cfg fp
      ([(windowStarts cfg rows).map (windowAt cfg rows)].flatten) = _
  rw [show ([(windowStarts cfg rows).map (windowAt cfg rows)].flatten)
      = (windowStarts cfg rows).map (windowAt cfg rows) by simp]
  rw [correctLoop_ok cfg fp _ hconds]
  rw [List.map_map, List.filterMap_map]
  rfl

lemma npNonzero_eq_nil (xs : List ℚ) (h : ∀ x ∈ xs, x = 0) :
    npNonzero xs = [] := by
  unfold npNonzero
  rw [List.filter_eq_nil_iff]
  intro j hj
  rw [List.mem_range] at hj
  simp only [decide_eq_true_eq, ne_eq, not_not]
  rw [List.getD_eq_getElem?_getD, List.getElem?_eq_getElem hj]
  exact h _ (List.getElem_mem hj)

lemma mem_npNonzero (xs : List ℚ) (j : Nat) :
    j ∈ npNonzero xs ↔ j < xs.length ∧ xs.getD j 0 ≠ 0 := by
  simp [npNonzero, List.mem_filter, List.mem_range]

lemma npNonzero_sorted (xs : List ℚ) :
    (npNonzero xs).Pairwise (· < ·) :=
  List.Pairwise.sublist (List.filter_sublist _) (List.pairwise_lt_range _)

lemma decode_preds_at (indexer : LabelIndexer) (exp : ℚ → ℚ)
    (outputs : DecodeInput) (ix : Nat) (hix : ix < outputs.mask.length) :
    (BaseClassifier.decode indexer exp outputs).preds.getD ix []
      = (if ((npNonzero (outputs.preds.getD ix [])).map (fun kx =>
            (indexer.get_tag kx,
              exp ((outputs.log_probs.getD ix []).getD kx 0)))).length = 0
         then [("O", (1 : ℚ))]
         else (npNonzero (outputs.preds.getD ix [])).map (fun kx =>
            (indexer.get_tag kx,
              exp ((outputs.log_probs.getD ix []).getD kx 0)))) := by
  have hix2 : ix < (outputs.mask.map (fun row => row.foldl (· + ·) 0)).length := by
    simpa using hix
  simp only [BaseClassifier.decode]
  rw [List.getD_eq_getElem?_getD, List.getElem?_map, List.getElem?_map,
    List.getElem?_range hix2]
  rfl

lemma pyRange_getElem? {n step k : Nat} (hk : k < (pyRange n step).length) :
    (pyRange n step)[k]? = some (step * k) := by
  rw [List.getElem?_eq_getElem hk]
  simp [pyRange]

/-! ## Claim theorems -/

/-- C1: the claim states that with the sampler absent or disabled the
forward pass completes and passes the raw attention through to the
identifier.  On the code as written every forward call instead fails when
it reads self.sampler, because __init__ never assigns that attribute (the
sampler constructor argument is dropped): here a freshly constructed
classifier, called on a batch with no extra keyword arguments and even
with a sampler object passed to the constructor, raises
AttributeError("sampler") before the identifier ever runs. -/
theorem C1_forward_fails_on_sampler_access :
    @BaseClassifier.forward Nat Nat Nat Nat Nat Nat
      (fun _ => 0)
      (@BaseClassifier.init Nat Nat Nat Nat Nat Nat
        (fun _ => 0) (fun _ _ => 0) (some (fun a _ => a))
        (fun _ _ _ _ _ => 0)
        ⟨1, fun _ => "PER", fun _ => [1]⟩ (1/2))
      3 none none []
      = Except.error (PyErr.attributeError "sampler") := rfl

/-- C7: a forward call with any extra keyword argument beyond
tokens/labels/tags raises NotImplementedError, independently of the
classifier state and the batch, and a call without extra keyword
arguments never takes that rejection branch. -/
theorem C7_forward_rejects_extra_kwargs
    {Tok Emb MaskT Attn Out Lbl : Type} (gm : Tok → MaskT)
    (self : BaseClassifierState Tok Emb MaskT Attn Out Lbl)
    (tokens : Tok) (labels : Option Lbl) (tags : Option (List String))
    (kwargs : List String) :
    (kwargs ≠ [] →
      BaseClassifier.forward gm self tokens labels tags kwargs
        = Except.error
            (PyErr.notImplementedError "Don't handle features yet")) ∧
    (kwargs = [] → ∀ msg,
      BaseClassifier.forward gm self tokens labels tags kwargs
        ≠ Except.error (PyErr.notImplementedError msg)) := by
  constructor
  · intro hk
    rw [BaseClassifier.forward,
      if_pos (List.length_pos.mpr hk)]
  · intro hk msg
    subst hk
    rw [BaseClassifier.forward, if_neg (by simp)]
    cases h : self.sampler_attr with
    | none => simp
    | some v => simp

/-- C4: for an instance of a decoded batch whose prediction row is all
zeros, decode emits exactly the single default entry ("O", 1.0), never an
empty list. -/
theorem C4_decode_all_zero_defaults_to_O (indexer : LabelIndexer)
    (exp : ℚ → ℚ) (outputs : DecodeInput) (ix : Nat)
    (hix : ix < outputs.mask.length)
    (hzero : ∀ x ∈ outputs.preds.getD ix [], x = 0) :
    (BaseClassifier.decode indexer exp outputs).preds.getD ix []
      = [("O", (1 : ℚ))] := by
  rw [decode_preds_at indexer exp outputs ix hix,
    npNonzero_eq_nil _ hzero]
  rfl

/-- Witness for C4: a one-instance batch with three prediction bits all
zero decodes to the single entry ("O", 1.0). -/
theorem C4_witness :
    0 < (⟨[[1, 1]], [[0, 0, 0]], [[-1, -2, -3]],
        [[[0, 0, 0], [0, 0, 0]]]⟩ : DecodeInput).mask.length ∧
    (∀ x ∈ (⟨[[1, 1]], [[0, 0, 0]], [[-1, -2, -3]],
        [[[0, 0, 0], [0, 0, 0]]]⟩ : DecodeInput).preds.getD 0 [], x = 0) ∧
    (BaseClassifier.decode ⟨3, fun _ => "PER", fun _ => []⟩ id
        ⟨[[1, 1]], [[0, 0, 0]], [[-1, -2, -3]],
          [[[0, 0, 0], [0, 0, 0]]]⟩).preds.getD 0 []
      = [("O", (1 : ℚ))] :=
  ⟨by decide, by decide,
    C4_decode_all_zero_defaults_to_O ⟨3, fun _ => "PER", fun _ => []⟩ id
      ⟨[[1, 1]], [[0, 0, 0]], [[-1, -2, -3]], [[[0, 0, 0], [0, 0, 0]]]⟩ 0
      (by decide) (by decide)⟩

/-- C5: for an instance of a decoded batch with at least one set
prediction bit, decode emits one (get_tag, exp(log_prob)) pair per set
bit; the set-bit index list is strictly increasing and contains exactly
the indices with a nonzero prediction entry. -/
theorem C5_decode_set_bits (indexer : LabelIndexer) (exp : ℚ → ℚ)
    (outputs : DecodeInput) (ix : Nat)
    (hix : ix < outputs.mask.length)
    (hne : npNonzero (outputs.preds.getD ix []) ≠ []) :
    (BaseClassifier.decode indexer exp outputs).preds.getD ix []
      = (npNonzero (outputs.preds.getD ix [])).map (fun kx =>
          (indexer.get_tag kx,
            exp ((outputs.log_probs.getD ix []).getD kx 0))) ∧
    (npNonzero (outputs.preds.getD ix [])).Pairwise (· < ·) ∧
    (∀ j, j ∈ npNonzero (outputs.preds.getD ix []) ↔
      j < (outputs.preds.getD ix []).length ∧
        (outputs.preds.getD ix []).getD j 0 ≠ 0) := by
  refine ⟨?_, npNonzero_sorted _, fun j => mem_npNonzero _ j⟩
  rw [decode_preds_at indexer exp outputs ix hix,
    if_neg (by simpa using hne)]

/-- Witness for C5: predictions [1,0,1] with log probabilities
[-0.1, -5.0, -0.3] decode (with the abstract exp instantiated as the
identity) to exactly the two entries for tags 0 and 2, in index order,
carrying those log probabilities. -/
theorem C5_witness :
    npNonzero ((⟨[[1, 1]], [[1, 0, 1]], [[-1/10, -5, -3/10]],
        [[[0, 0, 0], [0, 0, 0]]]⟩ : DecodeInput).preds.getD 0 []) ≠ [] ∧
    (BaseClassifier.decode
        ⟨3, fun kx => if kx = 0 then "PER" else
          if kx = 2 then "LOC" else "ORG", fun _ => []⟩ id
        ⟨[[1, 1]], [[1, 0, 1]], [[-1/10, -5, -3/10]],
          [[[0, 0, 0], [0, 0, 0]]]⟩).preds.getD 0 []
      = [("PER", (-1/10 : ℚ)), ("LOC", (-3/10 : ℚ))] := by
  constructor
  · decide
  · rw [(C5_decode_set_bits
      ⟨3, fun kx => if kx = 0 then "PER" else
        if kx = 2 then "LOC" else "ORG", fun _ => []⟩ id
      ⟨[[1, 1]], [[1, 0, 1]], [[-1/10, -5, -3/10]],
        [[[0, 0, 0], [0, 0, 0]]]⟩ 0 (by decide) (by decide)).1]
    rw [show npNonzero ((⟨[[1, 1]], [[1, 0, 1]], [[-1/10, -5, -3/10]],
        [[[0, 0, 0], [0, 0, 0]]]⟩ : DecodeInput).preds.getD 0 []) = [0, 2]
      from by decide]
    simp

/-- C8: the per-token color rule of the visualizer, after stripping the
span prefixes: agreement on a non-"O" type gives the single
both-correct color, a predicted "O" against a non-"O" gold gives the
missed color, a non-"O" prediction against a gold "O" gives the spurious
color, and agreement on "O" gives a neutral attention-shaded tone that
differs from all three highlight colors. -/
theorem C8_token_color_rule (w : ℚ) (p g : String) :
    (afterLastDash p = afterLastDash g → afterLastDash p ≠ "O" →
      attn_to_rgb w p g = Except.ok (colors2rgb "yellowGreen")) ∧
    (afterLastDash p = "O" → afterLastDash g ≠ "O" →
      attn_to_rgb w p g = Except.ok (colors2rgb "brickRed")) ∧
    (afterLastDash p ≠ "O" → afterLastDash g = "O" →
      attn_to_rgb w p g = Except.ok (colors2rgb "purple")) ∧
    (afterLastDash p = "O" → afterLastDash g = "O" →
      attn_to_rgb w p g = Except.ok ("#22aadd" ++ attnHex w) ∧
      "#22aadd" ++ attnHex w ≠ colors2rgb "yellowGreen" ∧
      "#22aadd" ++ attnHex w ≠ colors2rgb "brickRed" ∧
      "#22aadd" ++ attnHex w ≠ colors2rgb "purple") := by
  refine ⟨?_, ?_, ?_, ?_⟩
  · intro h1 h2
    simp only [attn_to_rgb]
    rw [if_pos h1, if_pos h2]
  · intro h1 h2
    simp only [attn_to_rgb]
    rw [if_neg (fun heq => h2 (heq.symm.trans h1)), if_pos h1]
  · intro h1 h2
    simp only [attn_to_rgb]
    rw [if_neg (fun heq => h1 (heq.trans h2)), if_neg h1, if_pos h2]
  · intro h1 h2
    refine ⟨?_, (neutral_ne_highlight (attnHex w)).1,
      (neutral_ne_highlight (attnHex w)).2.1,
      (neutral_ne_highlight (attnHex w)).2.2⟩
    simp only [attn_to_rgb]
    rw [if_pos (h1.trans h2.symm), if_neg (not_not_intro h1)]

/-- Witness for C8: the four color cases at concrete tags; the stripped
tags of "B-PER" and "I-PER" agree, so the both-correct color applies. -/
theorem C8_witness :
    attn_to_rgb (1/2) "B-PER" "I-PER" = Except.ok (colors2rgb "yellowGreen") ∧
    attn_to_rgb (1/2) "O" "B-PER" = Except.ok (colors2rgb "brickRed") ∧
    attn_to_rgb (1/2) "B-PER" "O" = Except.ok (colors2rgb "purple") ∧
    attn_to_rgb (1/2) "O" "O" = Except.ok ("#22aadd" ++ attnHex (1/2)) :=
  ⟨(C8_token_color_rule (1/2) "B-PER" "I-PER").1 (by decide) (by decide),
   (C8_token_color_rule (1/2) "O" "B-PER").2.1 (by decide) (by decide),
   (C8_token_color_rule (1/2) "B-PER" "O").2.2.1 (by decide) (by decide),
   ((C8_token_color_rule (1/2) "O" "O").2.2.2 (by decide) (by decide)).1⟩

/-- C10: the color function first strips both tags to the part after the
last dash; under the precondition that the stripped tags agree or one of
them is "O" it totally returns a color, and in the remaining branch (two
distinct non-"O" stripped types) no color is ever assigned: the call
fails with UnboundLocalError. -/
theorem C10_color_totality (w : ℚ) (p g : String) :
    ((afterLastDash p = afterLastDash g ∨ afterLastDash p = "O" ∨
        afterLastDash g = "O") →
      ∃ c, attn_to_rgb w p g = Except.ok c) ∧
    (afterLastDash p ≠ afterLastDash g → afterLastDash p ≠ "O" →
      afterLastDash g ≠ "O" →
      attn_to_rgb w p g = Except.error (PyErr.unboundLocalError "rgb")) := by
  constructor
  · intro hpre
    by_cases heq : afterLastDash p = afterLastDash g
    · by_cases hO : afterLastDash p = "O"
      · exact ⟨"#22aadd" ++ attnHex w, by
          simp only [attn_to_rgb]
          rw [if_pos heq, if_neg (not_not_intro hO)]⟩
      · exact ⟨colors2rgb "yellowGreen", by
          simp only [attn_to_rgb]
          rw [if_pos heq, if_pos hO]⟩
    · by_cases hpO : afterLastDash p = "O"
      · exact ⟨colors2rgb "brickRed", by
          simp only [attn_to_rgb]
          rw [if_neg heq, if_pos hpO]⟩
      · have hgO : afterLastDash g = "O" := by
          rcases hpre with h | h | h
          · exact absurd h heq
          · exact absurd h hpO
          · exact h
        exact ⟨colors2rgb "purple", by
          simp only [attn_to_rgb]
          rw [if_neg heq, if_neg hpO, if_pos hgO]⟩
  · intro hne hp hg
    simp only [attn_to_rgb]
    rw [if_neg hne, if_neg hp, if_neg hg]

/-- Witness for C10: "B-PER" and "I-PER" agree after stripping, so a
color is returned; "B-PER" against "I-ORG" hits the unassigned branch
and fails. -/
theorem C10_witness :
    (∃ c, attn_to_rgb (1/2) "B-PER" "I-PER" = Except.ok c) ∧
    attn_to_rgb (1/2) "B-PER" "I-ORG"
      = Except.error (PyErr.unboundLocalError "rgb") :=
  ⟨(C10_color_totality (1/2) "B-PER" "I-PER").1 (Or.inl (by decide)),
   (C10_color_totality (1/2) "B-PER" "I-ORG").2
     (by decide) (by decide) (by decide)⟩

/-- C2: reading a sentence (a corpus of one non-divider chunk, well
formed with 3 or 4 columns, default IOB1 coding, NER tag label, no
number conversion) with a positive length ceiling splits it into
consecutive non-overlapping windows: the read succeeds, every emitted
instance has at most max_sentence_length tokens, and concatenating the
token lists of the emitted instances in emission order reproduces the
original token column of the sentence. -/
theorem C2_window_partition (cfg : ReaderConfig) (fp : String)
    (rows : List (List String))
    (hrows : rows ≠ [])
    (hnd : ∀ r ∈ rows, _is_divider r = false)
    (hcols : pyZipLen rows = 3 ∨ pyZipLen rows = 4)
    (hcode : cfg.coding_scheme ≠ "BIOUL")
    (htag : cfg.tag_label = some "ner")
    (hmax : 0 < cfg.max_sentence_length)
    (hconv : cfg.convert_numbers = false) :
    ∃ insts logs, WeakConllRead cfg fp rows = Except.ok (insts, logs) ∧
      (∀ inst ∈ insts, (inst.tokens.length : Int) ≤ cfg.max_sentence_length) ∧
      (insts.map (fun inst => inst.tokens)).flatten = tokensOf rows := by
  have hsp := stepOf_pos cfg rows hrows hcols
  refine ⟨_, _, read_one_sentence cfg fp rows hrows hnd hcols hcode htag,
    ?_, ?_⟩
  · intro inst hmem
    obtain ⟨ix, _, rfl⟩ := List.mem_map.mp hmem
    have htokW : (applyCorrection (windowAt cfg rows ix)).tokens
        = ((newTokensOf cfg rows).drop ix).take (stepOf cfg rows) := by
      simp [applyCorrection, windowAt, mkWindowFields]
    rw [htokW]
    have hle : (((newTokensOf cfg rows).drop ix).take
        (stepOf cfg rows)).length ≤ stepOf cfg rows := by
      simp [List.length_take]
    have hstep_eq : stepOf cfg rows = cfg.max_sentence_length.toNat := by
      rw [stepOf, if_pos hmax]
    omega
  · have hmapeq : (((windowStarts cfg rows).map
        (fun ix => applyCorrection (windowAt cfg rows ix))).map
          (fun inst => inst.tokens))
        = (windowStarts cfg rows).map
          (fun ix => ((newTokensOf cfg rows).drop ix).take
            (stepOf cfg rows)) := by
      rw [List.map_map]
      refine List.map_congr_left (fun ix _ => ?_)
      simp [Function.comp, applyCorrection, windowAt, mkWindowFields]
    rw [hmapeq, windowStarts, pyRange_map_eq_chunks hsp, chunks_flatten hsp]
    rw [newTokensOf]
    have hid : convTok cfg = fun t => t := by
      funext t
      rw [convTok, hconv]
      simp
    rw [hid, List.map_id']

/-- Witness for C2: a four-token sentence read with ceiling 3 splits
into a window of three tokens and a window of one token whose
concatenation restores the sentence. -/
theorem C2_witness :
    (∃ insts logs,
      WeakConllRead
        { tag_label := some "ner", feature_labels := [],
          coding_scheme := "IOB1", max_sentence_length := 3,
          convert_numbers := false, label_indexer := none, mask_set := [] }
        "corpus.txt"
        [["EU", "NNP", "I-ORG"], ["rejects", "VBZ", "O"],
         ["German", "JJ", "I-MISC"], ["call", "NN", "O"]]
        = Except.ok (insts, logs) ∧
      (∀ inst ∈ insts, (inst.tokens.length : Int) ≤ (3 : Int)) ∧
      (insts.map (fun inst => inst.tokens)).flatten
        = tokensOf [["EU", "NNP", "I-ORG"], ["rejects", "VBZ", "O"],
            ["German", "JJ", "I-MISC"], ["call", "NN", "O"]]) :=
  C2_window_partition
    { tag_label := some "ner", feature_labels := [],
      coding_scheme := "IOB1", max_sentence_length := 3,
      convert_numbers := false, label_indexer := none, mask_set := [] }
    "corpus.txt"
    [["EU", "NNP", "I-ORG"], ["rejects", "VBZ", "O"],
     ["German", "JJ", "I-MISC"], ["call", "NN", "O"]]
    (by decide) (by decide) (by decide) (by decide) (by decide)
    (by decide) (by decide)

/-- C3: when a sentence is read with a positive length ceiling and the
window starting at position stepsize * k of the NER column begins with an
inside-span tag, the instance emitted for that window leaves the read
with its first gold tag rewritten by re.sub("I-", "B-"), and the
correction is logged. -/
theorem C3_inside_span_window_correction (cfg : ReaderConfig) (fp : String)
    (rows : List (List String))
    (hrows : rows ≠ [])
    (hnd : ∀ r ∈ rows, _is_divider r = false)
    (hcols : pyZipLen rows = 3 ∨ pyZipLen rows = 4)
    (hcode : cfg.coding_scheme ≠ "BIOUL")
    (htag : cfg.tag_label = some "ner")
    (hmax : 0 < cfg.max_sentence_length) :
    ∃ insts logs, WeakConllRead cfg fp rows = Except.ok (insts, logs) ∧
      ∀ k t ts,
        ((nerOf rows).drop (stepOf cfg rows * k)).take (stepOf cfg rows)
          = t :: ts →
        startsWithIB t = true →
        (insts.getD k default).tags = some (reSubIB t :: ts) ∧
        ("Made correction in " ++ fp) ∈ logs := by
  have hsp := stepOf_pos cfg rows hrows hcols
  have hL1 : (newTokensOf cfg rows).length = rows.length := by
    rw [newTokensOf, List.length_map, tokensOf_length rows hcols]
  have hL2 := nerOf_length rows hcols
  refine ⟨_, _, read_one_sentence cfg fp rows hrows hnd hcols hcode htag, ?_⟩
  intro k t ts hwin hSW
  have hne : ((nerOf rows).drop (stepOf cfg rows * k)).take
      (stepOf cfg rows) ≠ [] := by
    rw [hwin]; simp
  have hlt : stepOf cfg rows * k < (nerOf rows).length := by
    by_contra hge
    push_neg at hge
    exact hne (by rw [List.drop_eq_nil_of_le hge, List.take_nil])
  have hlt2 : stepOf cfg rows * k < (newTokensOf cfg rows).length := by
    omega
  have hkr : k < (windowStarts cfg rows).length := by
    rw [windowStarts]
    exact lt_pyRange_length hsp hlt2
  constructor
  · have hinst : (((windowStarts cfg rows).map
        (fun ix => applyCorrection (windowAt cfg rows ix))).getD k default)
        = applyCorrection (windowAt cfg rows (stepOf cfg rows * k)) := by
      rw [List.getD_eq_getElem?_getD, List.getElem?_map]
      rw [windowStarts] at hkr ⊢
      rw [pyRange_getElem? hkr]
      rfl
    rw [hinst]
    simp [applyCorrection, windowAt, mkWindowFields, htag, hwin,
      bCorrectTags, hSW]
  · refine List.mem_filterMap.mpr ⟨stepOf cfg rows * k, ?_, ?_⟩
    · rw [windowStarts, pyRange] at hkr ⊢
      rw [List.length_range'] at hkr
      exact List.mem_range'.mpr ⟨k, hkr, (Nat.zero_add _).symm⟩
    · simp [logOf, windowAt, mkWindowFields, htag, hwin, hSW]

/-- Witness for C3: the fixture sentence read with ceiling 2 splits into
windows starting at 0 and 2; the window tag lists start with "I-ORG" and
"I-MISC", so the emitted instances carry the B-rewritten first tags and
the correction is logged. -/
theorem C3_witness :
    ∃ insts logs,
      WeakConllRead (defaultReaderCfg 2 none) "corpus.txt" euRows
        = Except.ok (insts, logs) ∧
      ∀ k t ts,
        ((nerOf euRows).drop (stepOf (defaultReaderCfg 2 none) euRows
            * k)).take (stepOf (defaultReaderCfg 2 none) euRows)
          = t :: ts →
        startsWithIB t = true →
        (insts.getD k default).tags = some (reSubIB t :: ts) ∧
        ("Made correction in " ++ "corpus.txt") ∈ logs :=
  C3_inside_span_window_correction (defaultReaderCfg 2 none) "corpus.txt"
    euRows
    (by decide) (by decide) (by decide) (by decide) (by decide) (by decide)

/-- C9: for every well-formed sentence read with the NER tag label and a
label indexer configured, whatever the sign of the length ceiling (so
also for the single window of an unsplit or windowing-disabled read),
every emitted instance carries the conditionally B-corrected window tag
list, while its multi-label field is computed by the indexer from the
uncorrected window tag list: the rewrite happens after the labels field
has been derived. -/
theorem C9_correction_scope_and_uncorrected_labels (cfg : ReaderConfig)
    (fp : String) (rows : List (List String)) (idxr : LabelIndexer)
    (hrows : rows ≠ [])
    (hnd : ∀ r ∈ rows, _is_divider r = false)
    (hcols : pyZipLen rows = 3 ∨ pyZipLen rows = 4)
    (hcode : cfg.coding_scheme ≠ "BIOUL")
    (htag : cfg.tag_label = some "ner")
    (hidx : cfg.label_indexer = some idxr) :
    ∃ insts logs, WeakConllRead cfg fp rows = Except.ok (insts, logs) ∧
      ∀ k, k < insts.length →
        (insts.getD k default).tags
          = some (bCorrectTags (((nerOf rows).drop
              (stepOf cfg rows * k)).take (stepOf cfg rows))) ∧
        (insts.getD k default).labels
          = some (idxr.index (((nerOf rows).drop
              (stepOf cfg rows * k)).take (stepOf cfg rows))) := by
  refine ⟨_, _, read_one_sentence cfg fp rows hrows hnd hcols hcode htag, ?_⟩
  intro k hk
  rw [List.length_map] at hk
  have hinst : (((windowStarts cfg rows).map
      (fun ix => applyCorrection (windowAt cfg rows ix))).getD k default)
      = applyCorrection (windowAt cfg rows (stepOf cfg rows * k)) := by
    rw [List.getD_eq_getElem?_getD, List.getElem?_map]
    rw [windowStarts] at hk
    rw [windowStarts, pyRange_getElem? hk]
    rfl
  rw [hinst]
  constructor
  · simp [applyCorrection, windowAt, mkWindowFields, htag]
  · simp [applyCorrection, windowAt, mkWindowFields, hidx]

/-- Witness for C9: the fixture sentence read with windowing disabled
(ceiling -1) and the fixture indexer configured. -/
theorem C9_witness :
    ∃ insts logs,
      WeakConllRead (defaultReaderCfg (-1) (some euIndexer)) "corpus.txt"
          euRows
        = Except.ok (insts, logs) ∧
      ∀ k, k < insts.length →
        (insts.getD k default).tags
          = some (bCorrectTags (((nerOf euRows).drop
              (stepOf (defaultReaderCfg (-1) (some euIndexer)) euRows
                * k)).take
              (stepOf (defaultReaderCfg (-1) (some euIndexer)) euRows))) ∧
        (insts.getD k default).labels
          = some (euIndexer.index (((nerOf euRows).drop
              (stepOf (defaultReaderCfg (-1) (some euIndexer)) euRows
                * k)).take
              (stepOf (defaultReaderCfg (-1) (some euIndexer)) euRows))) :=
  C9_correction_scope_and_uncorrected_labels
    (defaultReaderCfg (-1) (some euIndexer)) "corpus.txt" euRows euIndexer
    (by decide) (by decide) (by decide) (by decide) (by decide) rfl

/-- C6: a corpus containing any sentence whose lines unzip to a column
count other than 3 or 4 makes the whole read fail: WeakConllRead never
returns an instance list for it, so no instance of any sentence of the
file is produced. -/
theorem C6_malformed_columns_abort_read (cfg : ReaderConfig) (fp : String)
    (lines : List (List String))
    (hbad : ∃ s ∈ groupSentences lines,
      pyZipLen s ≠ 3 ∧ pyZipLen s ≠ 4) :
    ∀ res, WeakConllRead cfg fp lines ≠ Except.ok res := by
  intro res hok
  obtain ⟨s, hs, h3, h4⟩ := hbad
  unfold WeakConllRead at hok
  cases hm : (groupSentences lines).mapM (processSentence cfg) with
  | error e =>
    rw [hm] at hok
    simp [Bind.bind, Except.bind] at hok
  | ok instLists =>
    obtain ⟨out, hout⟩ := mapM_ok_mem (processSentence cfg) _ _ hm s hs
    revert hout
    simp only [processSentence]
    rw [pyZip_length]
    rw [if_neg h4, if_neg h3]
    simp [Bind.bind, Except.bind]

/-- Witness for C6: a two-line corpus whose single sentence has only two
columns per line is rejected: the read returns no instance list at
all. -/
theorem C6_witness :
    (∃ s ∈ groupSentences [["Hello", "O"], ["world", "O"]],
      pyZipLen s ≠ 3 ∧ pyZipLen s ≠ 4) ∧
    ∀ res, WeakConllRead (defaultReaderCfg (-1) none) "corpus.txt"
        [["Hello", "O"], ["world", "O"]] ≠ Except.ok res :=
  ⟨by decide, C6_malformed_columns_abort_read (defaultReaderCfg (-1) none)
    "corpus.txt" [["Hello", "O"], ["world", "O"]] (by decide)⟩

/-- Witness for C7: a concrete classifier state; a forward call with the
extra keyword pos_tags is rejected with NotImplementedError, and a call
without extra keywords never returns that error. -/
theorem C7_witness :
    ((["pos_tags"] : List String) ≠ [] ∧
      @BaseClassifier.forward Nat Nat Nat Nat Nat Nat (fun _ => 0)
        ⟨⟨1, fun _ => "PER", fun _ => [1]⟩, 1, 1, fun _ => 0,
          fun _ _ => 0, fun _ _ _ _ _ => 0, none⟩
        0 none none ["pos_tags"]
        = Except.error
            (PyErr.notImplementedError "Don't handle features yet")) ∧
    (∀ msg, @BaseClassifier.forward Nat Nat Nat Nat Nat Nat (fun _ => 0)
        ⟨⟨1, fun _ => "PER", fun _ => [1]⟩, 1, 1, fun _ => 0,
          fun _ _ => 0, fun _ _ _ _ _ => 0, none⟩
        0 none none []
        ≠ Except.error (PyErr.notImplementedError msg)) :=
  ⟨⟨by decide,
    (C7_forward_rejects_extra_kwargs (fun _ => 0)
      ⟨⟨1, fun _ => "PER", fun _ => [1]⟩, 1, 1, fun _ => 0,
        fun _ _ => 0, fun _ _ _ _ _ => 0, none⟩
      0 none none ["pos_tags"]).1 (by decide)⟩,
   (C7_forward_rejects_extra_kwargs (fun _ => 0)
      ⟨⟨1, fun _ => "PER", fun _ => [1]⟩, 1, 1, fun _ => 0,
        fun _ _ => 0, fun _ _ _ _ _ => 0, none⟩
      0 none none []).2 rfl⟩
